import Mathlib

/-!
Verification development for the INTERLOCK TextSecure cipher module
(src/textsecure.go): a shallow embedding of its data model and operations,
with theorems about contact parsing, history tail reads, registration,
message sending and attachment handling.

The file has two parts: first the definitions embedding the module
(together with the concrete inputs used by witnesses and counterexamples),
then the theorems.
-/

namespace Interlock

/-- Paths and other Go strings are modelled as lists of characters. -/
abbrev Str := List Char

/-- `const contactExt = "textsecure"` (src/textsecure.go line 30). -/
def contactExt : Str := "textsecure".toList

/-- `const historySize = 10 * 1024` (src/textsecure.go line 32). -/
def historySize : Nat := 10 * 1024

/-- The configuration fields the module reads (`conf.mountPoint`,
`conf.KeyPath`). -/
structure Config where
  mountPoint : Str
  keyPath : Str

/-- `storagePath` (src/textsecure.go lines 523-525):
`filepath.Join(conf.mountPoint, conf.KeyPath, "textsecure", "private")`.
`filepath.Join` is modelled as interposing `/` between clean components. -/
def storagePath (conf : Config) : Str :=
  conf.mountPoint ++ ('/' :: conf.keyPath) ++ "/textsecure/private".toList

/-- `contactsPath` (src/textsecure.go lines 527-529). -/
def contactsPath (conf : Config) : Str :=
  conf.mountPoint ++ "/textsecure/contacts".toList

/-- `attachmentsPath` (src/textsecure.go lines 531-533). -/
def attachmentsPath (conf : Config) : Str :=
  conf.mountPoint ++ "/textsecure/attachments".toList

/-- `numberPath` (src/textsecure.go lines 535-537):
`filepath.Join(storagePath(), "number")`. -/
def numberPath (conf : Config) : Str :=
  storagePath conf ++ "/number".toList

/-! ## History tail read (`downloadHistory`, src/textsecure.go lines 313-340)

The file content is a list of bytes (`List Nat`).  `downloadHistory` seeks to
`size - historySize` when the size exceeds `historySize`, reads the rest, and
trims at the first line feed (byte `0xa`) of the read suffix, falling back to
offset 0 when none is found. -/

/-- `bytes.IndexByte`: index of the first occurrence of `x`, `none` if absent
(Go returns `-1`; the caller maps that to offset 0). -/
def indexByte : List Nat → Nat → Option Nat
  | [], _ => none
  | b :: rest, x => if b = x then some 0 else (indexByte rest x).map (· + 1)

/-- The tail-read logic of `downloadHistory` (src/textsecure.go lines
313-340), as a pure function of the history file's byte content: seek to
`size - historySize` when over the bound, read all, then drop up to the
first line feed of what was read (offset 0 when there is none). -/
def downloadHistoryTail (content : List Nat) : List Nat :=
  if content.length > historySize then
    (content.drop (content.length - historySize)).drop
      ((indexByte (content.drop (content.length - historySize)) 10).getD 0)
  else
    content

/-- The tail read as the specification words it: after the seek, the partial
first line is discarded by scanning to the first line feed, and the returned
text starts exactly AFTER that line feed (offset 0 when there is none).  This
definition follows the spec text and is compared against
`downloadHistoryTail`, which follows the code. -/
def claimedHistoryTail (content : List Nat) : List Nat :=
  if content.length > historySize then
    (content.drop (content.length - historySize)).drop
      (((indexByte (content.drop (content.length - historySize)) 10).map (· + 1)).getD 0)
  else
    content

/-- A 10242-byte history file: 10239 letters `A`, a line feed, a letter `B`
and a final line feed.  The seek offset is 2, the seeked-to suffix is
10237 letters `A` followed by `\nB\n`, and its first line feed sits at
index 10237. -/
def historyCexOver : List Nat := List.replicate 10239 65 ++ [10, 66, 10]

/-- A history file of exactly `historySize` bytes. -/
def historyCexExact : List Nat := List.replicate 10240 66

/-- A history file one byte over `historySize` containing no line feed. -/
def historyCexNoLF : List Nat := List.replicate 10241 65

/-! ## Contact parsing (`parseContact`, src/textsecure.go lines 417-441)

`parseContact` matches the path against the regular expression
`^<contactsPath>/(([^/]*) ((?:\+|00)[0-9]+))\.textsecure$` and then runs
`absolutePath` on it to detect path traversal. -/

/-- `[0-9]` on ASCII code points. -/
def isDigitCh (c : Char) : Bool := 48 ≤ c.toNat && c.toNat ≤ 57

/-- The regular expression `(?:\+|00)[0-9]+` matched against a whole string
(`numberPattern`, src/textsecure.go line 34, anchors included): a `+` or `00`
marker followed by one or more ASCII digits. -/
def numberMatches (s : Str) : Bool :=
  (decide (s.take 1 = ['+']) && !(s.drop 1).isEmpty && (s.drop 1).all isDigitCh) ||
  (decide (s.take 2 = ['0', '0']) && !(s.drop 2).isEmpty && (s.drop 2).all isDigitCh)

/-- Split a path at every `/` (used to model traversal detection). -/
def splitSlash : Str → List Str
  | [] => [[]]
  | c :: rest =>
    match splitSlash rest with
    | [] => [[]]
    | s :: ss => if c = '/' then [] :: s :: ss else (c :: s) :: ss

/-- Modelled from the spec: `absolutePath` is not part of this module's
source; per the spec it resolves a request-supplied path to an absolute path
and is the guard "against path traversal (`../`)".  It is modelled as the
identity on its input, failing exactly when the path has a `..`
component. -/
def absolutePathM (p : Str) : Except String Str :=
  if "..".toList ∈ splitSlash p then .error "path traversal" else .ok p

/-- Strip a literal pattern (first argument) from the front of a string. -/
def stripPre : Str → Str → Option Str
  | [], r => some r
  | _ :: _, [] => none
  | c :: cs, d :: ds => if c = d then stripPre cs ds else none

/-- Strip a literal pattern (first argument) from the end of a string. -/
def stripSuf (pat s : Str) : Option Str :=
  (stripPre pat.reverse s.reverse).map List.reverse

/-- Whether index `i` of `mid` is a space followed by a full match of
`(?:\+|00)[0-9]+` running to the end of `mid`. -/
def validSplitAt (mid : Str) (i : Nat) : Bool :=
  decide (mid.drop i = ' ' :: mid.drop (i + 1)) && numberMatches (mid.drop (i + 1))

/-- The split the leftmost-greedy group `([^/]*)` of the contact pattern
produces: the LAST index of `mid` that is a space followed by a full number
match. -/
def lastValidSplit (mid : Str) : Option Nat :=
  ((List.range mid.length).filter (fun i => validSplitAt mid i)).getLast?

/-- `contactInfo` (src/textsecure.go lines 45-50). -/
structure ContactInfo where
  Name : Str
  Number : Str
  HistoryPath : Str
  AttachmentDir : Str
deriving DecidableEq

/-- `parseContact` (src/textsecure.go lines 417-441): match the path against
`^<contactsPath>/(([^/]*) ((?:\+|00)[0-9]+))\.textsecure$` (the first group
greedy, hence the last valid split), then detect path traversal with
`absolutePath`, then build the record with `Name` and `Number` from the
groups, `HistoryPath` the path itself and `AttachmentDir` the whole middle
joined under `attachmentsPath`. -/
def parseContact (conf : Config) (p : Str) : Except String ContactInfo :=
  match stripPre (contactsPath conf ++ ['/']) p with
  | none => .error "invalid contact"
  | some r =>
    match stripSuf ('.' :: contactExt) r with
    | none => .error "invalid contact"
    | some mid =>
      if ∀ c ∈ mid, c ≠ '/' then
        match lastValidSplit mid with
        | none => .error "invalid contact"
        | some i =>
          match absolutePathM p with
          | .error e => .error e
          | .ok _ =>
            .ok ⟨mid.take i, mid.drop (i + 1), p,
              attachmentsPath conf ++ '/' :: mid⟩
      else .error "invalid contact"

/-! ## Effects and responses

The stateful operations are embedded as pure functions from an environment
of oracles (results of file-system and transport calls) to a result plus the
ordered list of side effects performed. -/

/-- One observable side effect of the module, in execution order. -/
inductive Effect where
  | mkdirAll (p : Str)
  | openFile (p : Str)
  | sendMsgCall (number : Str) (msg : Str)
  | sendAttachCall (number : Str) (msg : Str) (p : Str)
  | openHistory (p : Str)
  | writeHistory (p : Str) (line : Str)
  | statusError
  | notify (number : Str)
  | createTemp (dir : Str)
  | copyStream (dir : Str)
  | openNumberWrite (p : Str)
  | writeNumber (p : Str) (n : Str)
  | readNumber (p : Str)
  | unmount
  | closeVol
deriving DecidableEq

/-- `true` exactly on the `os.Open` effect of the attachment path. -/
def Effect.isFileOpen : Effect → Bool
  | .openFile _ => true
  | _ => false

/-- `true` exactly on the two transport calls (`textsecure.SendMessage`,
`textsecure.SendAttachment`). -/
def Effect.isTransportCall : Effect → Bool
  | .sendMsgCall _ _ => true
  | .sendAttachCall _ _ _ => true
  | _ => false

/-- `true` exactly on the effects of `updateHistory` touching the history
file (open in append mode, write of the formatted line). -/
def Effect.isHistoryWrite : Effect → Bool
  | .openHistory _ => true
  | .writeHistory _ _ => true
  | _ => false

/-- `true` exactly on the effects that write to the persisted number file. -/
def Effect.touchesNumberFile : Effect → Bool
  | .openNumberWrite _ => true
  | .writeNumber _ _ => true
  | _ => false

/-- A `jsonObject` response: `{status: "OK", response: …}` from a handler, or
the object built by `errorResponse`. -/
inductive Resp where
  | ok (response : Option Str)
  | err (e : String)
deriving DecidableEq

/-- Whether a response is the OK object. -/
def Resp.isOk : Resp → Bool
  | .ok _ => true
  | .err _ => false

/-! ## History append (`updateHistory`, src/textsecure.go lines 475-489) -/

/-- The formatted line `fmt.Sprintf("%s %s %s\n", t.Format(timeFormat),
prefix, msg)` (src/textsecure.go line 484); the timestamp is the oracle
string `ts`. -/
def historyLine (ts marker msg : Str) : Str :=
  ts ++ ' ' :: marker ++ ' ' :: msg ++ ['\n']

/-- The outbound direction marker `">"`. -/
def outMarker : Str := ['>']

/-- The inbound direction marker `"<"`. -/
def inMarker : Str := ['<']

/-- Oracles for one `updateHistory` call: the result of
`os.OpenFile(contact.HistoryPath, O_WRONLY|O_CREATE|O_APPEND, 0600)` and the
result of `output.Write([]byte(h))`.  The source DISCARDS the write result
(line 486 assigns it to nothing), so `writeRes` is never consulted by the
embedding -- exactly as in the code. -/
structure HistEnv where
  openRes : Except String Unit
  writeRes : Except String Unit

/-- `updateHistory` (src/textsecure.go lines 475-489): open append-mode
(returning the error after `status.Error` on failure), write the formatted
line with the write error discarded, and return `nil`. -/
def updateHistory (env : HistEnv) (contact : ContactInfo) (msg marker ts : Str) :
    Except String Unit × List Effect :=
  match env.openRes with
  | .error e => (.error e, [.openHistory contact.HistoryPath, .statusError])
  | .ok _ =>
    (.ok (), [.openHistory contact.HistoryPath,
      .writeHistory contact.HistoryPath (historyLine ts marker msg)])

/-! ## Outbound send (`sendMessage`, src/textsecure.go lines 197-273) -/

/-- A parsed and validated send request: `contact:s` and `msg:s` are
required, `attachment` optional. -/
structure Req where
  contact : Str
  msg : Str
  attachment : Option Str

/-- `path.Base`: the last non-empty path component (`"."` for the empty
path, `"/"` when the path is all slashes). -/
def baseName (p : Str) : Str :=
  match ((splitSlash p).filter (fun comp => decide (comp ≠ []))).getLast? with
  | some comp => comp
  | none => if p = [] then ['.'] else ['/']

/-- Oracles for one `sendMessage` call: the parsed request (`parseRequest` +
`validateRequest`), the external `detectKeyPath` classifier (returning the
`inKeyPath` and `private` flags), the result of `os.Open` on the attachment,
the two transport results and the history-append oracles. -/
structure SendEnv where
  conf : Config
  reqRes : Except String Req
  detectKeyPath : Str → Bool × Bool
  openRes : Str → Except String Unit
  sendAttachRes : Except String Unit
  sendRes : Except String Unit
  hist : HistEnv
  now : Str

/-- `sendMessage` (src/textsecure.go lines 197-273): parse and validate the
request, resolve the contact path (`absolutePath`), parse the contact; with
an attachment: resolve its path, refuse when `detectKeyPath` classifies it
as a private key path, open it, send it with the message, then append
history; without: plain send, then append history.  Every failure
short-circuits into an error response. -/
def sendMessage (env : SendEnv) : Resp × List Effect :=
  match env.reqRes with
  | .error e => (.err e, [])
  | .ok req =>
    match absolutePathM req.contact with
    | .error e => (.err e, [])
    | .ok contactPath =>
      match parseContact env.conf contactPath with
      | .error e => (.err e, [])
      | .ok contact =>
        match req.attachment with
        | some a =>
          match absolutePathM a with
          | .error e => (.err e, [])
          | .ok attachmentPath =>
            if (env.detectKeyPath attachmentPath).1 = true ∧
                (env.detectKeyPath attachmentPath).2 = true then
              (.err "downloading private key(s) is not allowed", [])
            else
              match env.openRes attachmentPath with
              | .error e => (.err e, [.openFile attachmentPath])
              | .ok _ =>
                match env.sendAttachRes with
                | .error e => (.err e, [.openFile attachmentPath,
                    .sendAttachCall contact.Number req.msg attachmentPath])
                | .ok _ =>
                  match updateHistory env.hist contact
                      ('[' :: baseName attachmentPath ++ ']' :: ' ' :: req.msg)
                      outMarker env.now with
                  | (.error e, heff) => (.err e,
                      .openFile attachmentPath ::
                      .sendAttachCall contact.Number req.msg attachmentPath :: heff)
                  | (.ok _, heff) => (.ok none,
                      .openFile attachmentPath ::
                      .sendAttachCall contact.Number req.msg attachmentPath :: heff)
        | none =>
          match env.sendRes with
          | .error e => (.err e, [.sendMsgCall contact.Number req.msg])
          | .ok _ =>
            match updateHistory env.hist contact req.msg outMarker env.now with
            | (.error e, heff) => (.err e, .sendMsgCall contact.Number req.msg :: heff)
            | (.ok _, heff) => (.ok none, .sendMsgCall contact.Number req.msg :: heff)

/-! ## Contact lookup by number (`getContact`, src/textsecure.go
lines 443-473) -/

/-- Oracles for one `getContact` call: the `os.MkdirAll(contactsPath())`
result and the `filepath.Glob` result (Go's `filepath.Glob` returns its
matches lexically sorted). -/
structure GetContactEnv where
  conf : Config
  mkdirRes : Except String Unit
  globRes : Except String (List Str)

/-- `getContact` (src/textsecure.go lines 443-473): reject numbers not
matching `numberPattern`; create the contacts directory; glob
`<contactsPath>/*<number>.textsecure`; with no match synthesize the
`Unknown <number>` record (nothing written to disk); otherwise parse
`contacts[0]`, the first match in the glob's sorted order. -/
def getContact (env : GetContactEnv) (number : Str) :
    Except String ContactInfo × List Effect :=
  if numberMatches number = true then
    match env.mkdirRes with
    | .error e => (.error e, [.mkdirAll (contactsPath env.conf)])
    | .ok _ =>
      match env.globRes with
      | .error e => (.error e, [.mkdirAll (contactsPath env.conf)])
      | .ok contacts =>
        match contacts with
        | [] =>
          (.ok ⟨"Unknown".toList, number,
            contactsPath env.conf ++ '/' :: ("Unknown ".toList ++ number ++ '.' :: contactExt),
            attachmentsPath env.conf ++ '/' :: ("Unknown ".toList ++ number)⟩,
            [.mkdirAll (contactsPath env.conf)])
        | c0 :: _ => (parseContact env.conf c0, [.mkdirAll (contactsPath env.conf)])
  else
    (.error "invalid contact number format", [])

/-- Byte-wise lexicographic strict order on strings (Go's `sort.Strings`
order, used by `filepath.Glob`). -/
def strLt : Str → Str → Bool
  | [], [] => false
  | [], _ :: _ => true
  | _ :: _, [] => false
  | c :: cs, d :: ds =>
    if c.toNat < d.toNat then true
    else if d.toNat < c.toNat then false
    else strLt cs ds

/-- Reflexive closure of `strLt`. -/
def strLe (a b : Str) : Bool := strLt a b || decide (a = b)

/-! ## Attachment store (`saveAttachment`, src/textsecure.go
lines 393-415) -/

/-- Oracles for one `saveAttachment` call: `os.MkdirAll(attachmentDir)`,
`ioutil.TempFile` (producing the fresh unique file), `io.Copy` (its result
is DISCARDED by line 409), and the name `relativePath` computes for the
temp file (its error is discarded by line 412). -/
structure SaveEnv where
  mkdirRes : Except String Unit
  tempRes : Except String Str
  copyRes : Except String Nat
  relName : Str

/-- `saveAttachment` (src/textsecure.go lines 393-415): create the
attachment directory, create a fresh `attachment_*` temp file in it, copy
the stream into it with the copy result discarded, and return the
storage-relative name with a `nil` error. -/
def saveAttachment (env : SaveEnv) (contact : ContactInfo) :
    (Str × Except String Unit) × List Effect :=
  match env.mkdirRes with
  | .error e => (([], .error e), [.mkdirAll contact.AttachmentDir])
  | .ok _ =>
    match env.tempRes with
    | .error e => (([], .error e),
        [.mkdirAll contact.AttachmentDir, .createTemp contact.AttachmentDir])
    | .ok _ =>
      ((env.relName, .ok ()),
        [.mkdirAll contact.AttachmentDir, .createTemp contact.AttachmentDir,
          .copyStream contact.AttachmentDir])

/-! ## Inbound listener callback (`messageHandler`, src/textsecure.go
lines 362-391)

The notification-expiry goroutine (Notify / 30s sleep / Remove) is
concurrency outside this trace model; the `notify` effect records the
`status.Log` notice. -/

/-- Oracles for one inbound message: sender, text, formatted timestamp, the
`getContact` oracles, the history oracles for the text line, and one
`saveAttachment` + `updateHistory` oracle pair per attachment. -/
structure MsgEnv where
  source : Str
  text : Str
  ts : Str
  gc : GetContactEnv
  textHist : HistEnv
  attachments : List (SaveEnv × HistEnv)

/-- The per-attachment body of the loop at src/textsecure.go lines 382-390:
save the attachment; on failure `status.Error` and continue; on success
append a `[name]` history entry. -/
def processAttachment (contact : ContactInfo) (ts : Str) (ah : SaveEnv × HistEnv) :
    List Effect :=
  match saveAttachment ah.1 contact with
  | ((_, .error _), eff) => eff ++ [.statusError]
  | ((name, .ok _), eff) =>
      eff ++ (updateHistory ah.2 contact ('[' :: name ++ [']']) inMarker ts).2

/-- `messageHandler` (src/textsecure.go lines 362-391): log the notice,
resolve the sender (dropping the message on failure after `status.Error`),
append the text line when the text is non-empty, then process every
attachment in order. -/
def messageHandler (env : MsgEnv) : List Effect :=
  .notify env.source ::
  (match (getContact env.gc env.source).1 with
   | .error _ => (getContact env.gc env.source).2 ++ [.statusError]
   | .ok contact =>
     (getContact env.gc env.source).2 ++
     (if env.text ≠ [] then (updateHistory env.textHist contact env.text inMarker env.ts).2
      else []) ++
     (env.attachments.map (processAttachment contact env.ts)).flatten)

/-! ## Registration branch of `Activate` (src/textsecure.go lines 77-124)
and `needsRegistration` (lines 491-502) -/

/-- The outcome of the pre-auth registration branch: `fatal` models
`log.Fatal`/`log.Fatalf` (the process exits), `proceed` models falling
through to the common setup code. -/
inductive ActivateOutcome where
  | fatal (msg : Str)
  | proceed
deriving DecidableEq

/-- Oracles for one registration-mode activation: whether `conf.testMode`
is set, the `authenticate` result, the `os.Stat` result on the last-resort
prekey sentinel, the operator-entered number, the open result for the
number file, and the number file's current content (`registeredNumber`). -/
structure ActivateEnv where
  conf : Config
  testMode : Bool
  authRes : Except String Unit
  statRes : Except String Unit
  numberInput : Str
  openNumberRes : Except String Unit
  regNumber : Except String Str

/-- `needsRegistration` (src/textsecure.go lines 491-502): `reg` is `false`
and becomes `true` exactly when `os.Stat` on the sentinel last-resort-key
file (`<storagePath>/prekeys/016777215`) fails. -/
def needsRegistration (statRes : Except String Unit) : Bool :=
  match statRes with
  | .ok _ => false
  | .error _ => true

/-- The sentinel decision of `Activate` (src/textsecure.go lines 104-123):
when registration is needed, prompt for the number and persist it (fatal on
open failure); otherwise read the registered number (error ignored), re-lock
the volume outside test mode, and exit fatally naming that number. -/
def activateRegistrationChecked (env : ActivateEnv) : ActivateOutcome × List Effect :=
  if needsRegistration env.statRes then
    match env.openNumberRes with
    | .error _ => (.fatal ("failed to save number".toList),
        [.openNumberWrite (numberPath env.conf)])
    | .ok _ => (.proceed,
        [.openNumberWrite (numberPath env.conf),
          .writeNumber (numberPath env.conf) env.numberInput])
  else
    (.fatal ("TextSecure registration already present for number ".toList ++
      (match env.regNumber with | .ok n => n | .error _ => []) ++
      ", delete ".toList ++ storagePath env.conf ++ " contents to reset.".toList),
      .readNumber (numberPath env.conf) ::
        (if env.testMode = false then [.unmount, .closeVol] else []))

/-- The pre-auth registration branch of `Activate` (src/textsecure.go lines
83-124): outside test mode, authenticate first (unmount, close, fatal on
failure), then take the sentinel decision. -/
def activateRegistration (env : ActivateEnv) : ActivateOutcome × List Effect :=
  if env.testMode = false then
    match env.authRes with
    | .error e => (.fatal e.toList, [.unmount, .closeVol])
    | .ok _ => activateRegistrationChecked env
  else
    activateRegistrationChecked env

/-- `true` exactly on the `mkdirAll` effect for directory `d`. -/
def Effect.isMkdirOf (d : Str) : Effect → Bool
  | .mkdirAll p => decide (p = d)
  | _ => false

/-! ## Concrete inputs for witnesses and counterexamples -/

/-- A concrete configuration: volume mounted at `/m`, key path `k`. -/
def conf₀ : Config := ⟨"/m".toList, "k".toList⟩

/-- A concrete contact record. -/
def contact₀ : ContactInfo :=
  ⟨"Alice".toList, "+15550001".toList,
    "/m/textsecure/contacts/Alice +15550001.textsecure".toList,
    "/m/textsecure/attachments/Alice +15550001".toList⟩

/-- A concrete timestamp in `timeFormat` shape. -/
def ts₀ : Str := "Jan 02 15:04".toList

/-- History oracles where the append-mode open succeeds but the write of the
formatted line fails. -/
def histEnvWriteFail : HistEnv := ⟨.ok (), .error "disk full"⟩

/-- History oracles where the append-mode open fails. -/
def histEnvOpenFail : HistEnv := ⟨.error "no such file", .ok ()⟩

/-- Save oracles where directory creation and temp-file creation succeed but
the stream copy fails. -/
def saveEnvCopyFail : SaveEnv :=
  ⟨.ok (), .ok "/m/textsecure/attachments/Alice +15550001/attachment_1".toList,
    .error "unexpected EOF", "textsecure/attachments/Alice +15550001/attachment_1".toList⟩

/-- Send oracles for a request whose attachment resolves into the private
key storage area (`detectKeyPath` classifies every path as in-key-path and
private). -/
def sendEnvKey : SendEnv :=
  ⟨conf₀,
    .ok ⟨"/m/textsecure/contacts/Alice +15550001.textsecure".toList, "hello".toList,
      some "/m/k/textsecure/private/identity_key".toList⟩,
    fun _ => (true, true), fun _ => .ok (), .ok (), .ok (), ⟨.ok (), .ok ()⟩, ts₀⟩

/-- Send oracles for a plain send whose transport call fails. -/
def sendEnvDown : SendEnv :=
  ⟨conf₀,
    .ok ⟨"/m/textsecure/contacts/Alice +15550001.textsecure".toList, "hello".toList, none⟩,
    fun _ => (false, false), fun _ => .ok (), .error "transport down",
    .error "transport down", ⟨.ok (), .ok ()⟩, ts₀⟩

/-- Save oracles where the directory creation fails. -/
def saveEnvMkdirFail : SaveEnv :=
  ⟨.error "permission denied", .ok "x".toList, .ok 0, "x".toList⟩

/-- Save oracles where the temp-file creation fails. -/
def saveEnvTempFail : SaveEnv := ⟨.ok (), .error "no space", .ok 0, []⟩

/-- A second contact file for the same number, lexically after the first. -/
def contactFileA : Str := "/m/textsecure/contacts/Alice +15550001.textsecure".toList

/-- See `contactFileA`. -/
def contactFileB : Str := "/m/textsecure/contacts/Bob +15550001.textsecure".toList

/-- Lookup oracles with two files matching the same number. -/
def gcEnvTwo : GetContactEnv := ⟨conf₀, .ok (), .ok [contactFileA, contactFileB]⟩

/-- Lookup oracles with no matching file. -/
def gcEnvNone : GetContactEnv := ⟨conf₀, .ok (), .ok []⟩

/-- Activation oracles for a run (in test mode) where the sentinel
last-resort-key marker exists and the number file holds `+15550001`. -/
def activateEnv₀ : ActivateEnv :=
  ⟨conf₀, true, .ok (), .ok (), "+1".toList, .ok (), .ok "+15550001".toList⟩

/-- Inbound-message oracles: the sender resolves to `contact₀` through the
single glob match, the text line appends fine, and of the two attachments
the first fails at directory creation while the second saves (with its copy
failure discarded). -/
def msgEnv₀ : MsgEnv :=
  ⟨"+15550001".toList, "hi".toList, ts₀,
    ⟨conf₀, .ok (), .ok [contactFileA]⟩,
    ⟨.ok (), .ok ()⟩,
    [(saveEnvMkdirFail, ⟨.ok (), .ok ()⟩), (saveEnvCopyFail, ⟨.ok (), .ok ()⟩)]⟩

end Interlock

deriving instance DecidableEq for Except

namespace Interlock

/-! ## Theorems -/

theorem indexByte_eq_none (l : List Nat) (x : Nat) (h : ∀ b ∈ l, b ≠ x) :
    indexByte l x = none := by
  induction l with
  | nil => rfl
  | cons b rest ih =>
    simp only [indexByte]
    rw [if_neg (h b (List.mem_cons_self b rest)), ih fun c hc => h c (List.mem_cons_of_mem b hc)]
    rfl

theorem indexByte_replicate_ne (n a x : Nat) (h : a ≠ x) :
    indexByte (List.replicate n a) x = none :=
  indexByte_eq_none _ _ fun b hb => by rw [List.eq_of_mem_replicate hb]; exact h

theorem indexByte_replicate_append (n a x : Nat) (t : List Nat) (h : a ≠ x) :
    indexByte (List.replicate n a ++ x :: t) x = some n := by
  induction n with
  | zero => simp [indexByte]
  | succ m ih =>
    rw [List.replicate_succ, List.cons_append]
    simp only [indexByte]
    rw [if_neg h, ih]
    rfl

theorem indexByte_some_drop (l : List Nat) (x i : Nat) (h : indexByte l x = some i) :
    l.drop i = x :: l.drop (i + 1) := by
  induction l generalizing i with
  | nil => simp [indexByte] at h
  | cons b rest ih =>
    simp only [indexByte] at h
    by_cases hb : b = x
    · rw [if_pos hb] at h
      cases h
      simp [hb]
    · rw [if_neg hb] at h
      cases hrest : indexByte rest x with
      | none => rw [hrest] at h; simp [Option.map] at h
      | some j =>
        rw [hrest] at h
        simp only [Option.map] at h
        cases h
        have := ih j hrest
        simpa using this

theorem indexByte_earlier_ne (l : List Nat) (x i : Nat) (h : indexByte l x = some i) :
    ∀ j, j < i → l[j]? ≠ some x := by
  induction l generalizing i with
  | nil => simp [indexByte] at h
  | cons b rest ih =>
    simp only [indexByte] at h
    by_cases hb : b = x
    · rw [if_pos hb] at h
      cases h
      intro j hj
      exact absurd hj (Nat.not_lt_zero j)
    · rw [if_neg hb] at h
      cases hrest : indexByte rest x with
      | none => rw [hrest] at h; simp [Option.map] at h
      | some k =>
        rw [hrest] at h
        simp only [Option.map] at h
        cases h
        intro j hj
        cases j with
        | zero => simpa using hb
        | succ j₀ =>
          have : j₀ < k := Nat.lt_of_succ_lt_succ hj
          simpa using ih k hrest j₀ this

/-- C2 (amended): when the file size exceeds `historySize` the returned text
starts exactly AT the first line feed of the seeked-to suffix (retaining that
line-feed byte), not after it; with no line feed the whole suffix is
returned; a file of exactly `historySize` bytes is returned whole. -/
theorem downloadHistoryTail_boundary (content : List Nat) :
    (content.length = historySize → downloadHistoryTail content = content) ∧
    (content.length > historySize →
      (indexByte (content.drop (content.length - historySize)) 10 = none →
        downloadHistoryTail content = content.drop (content.length - historySize)) ∧
      (∀ i, indexByte (content.drop (content.length - historySize)) 10 = some i →
        downloadHistoryTail content = (content.drop (content.length - historySize)).drop i ∧
        (downloadHistoryTail content).head? = some 10 ∧
        ∀ j, j < i → (content.drop (content.length - historySize))[j]? ≠ some 10)) := by
  constructor
  · intro h
    unfold downloadHistoryTail
    rw [if_neg (by omega)]
  · intro h
    constructor
    · intro hnone
      unfold downloadHistoryTail
      rw [if_pos h]
      rw [hnone]
      rw [Option.getD_none]
      rw [List.drop_zero]
    · intro i hsome
      have hdef : downloadHistoryTail content =
          (content.drop (content.length - historySize)).drop i := by
        unfold downloadHistoryTail
        rw [if_pos h]
        rw [hsome]
        rw [Option.getD_some]
      refine ⟨hdef, ?_, indexByte_earlier_ne _ _ _ hsome⟩
      rw [hdef, indexByte_some_drop _ _ _ hsome]
      rfl

theorem drop_replicate_append {α : Type} (n : Nat) (a : α) (t : List α) :
    (List.replicate n a ++ t).drop n = t := by
  induction n with
  | zero => simp
  | succ m ih => rw [List.replicate_succ, List.cons_append, List.drop_succ_cons, ih]

theorem drop_succ_replicate_append {α : Type} (n : Nat) (a x : α) (t : List α) :
    (List.replicate n a ++ x :: t).drop (n + 1) = t := by
  induction n with
  | zero => simp
  | succ m ih => rw [List.replicate_succ, List.cons_append, List.drop_succ_cons, ih]

theorem historyCexOver_len : historyCexOver.length = 10242 := by
  rw [historyCexOver, List.length_append, List.length_replicate]
  decide

theorem historyCexOver_gt : historyCexOver.length > historySize := by
  rw [historyCexOver_len]
  decide

theorem historyCexOver_drop :
    historyCexOver.drop (historyCexOver.length - historySize) =
      List.replicate 10237 65 ++ [10, 66, 10] := by
  have hsub : historyCexOver.length - historySize = 2 := by
    rw [historyCexOver_len]
    decide
  rw [hsub, historyCexOver,
    List.drop_append_of_le_length (by rw [List.length_replicate]; decide),
    List.drop_replicate]

theorem historyCexOver_idx :
    indexByte (historyCexOver.drop (historyCexOver.length - historySize)) 10 =
      some 10237 := by
  rw [historyCexOver_drop]
  exact indexByte_replicate_append 10237 65 10 [66, 10] (by decide)

/-- C2 counterexample: on a 10242-byte history whose seeked-to suffix is
`A…A\nB\n` (first line feed of the suffix at index 10237), the code returns
the suffix starting AT that line feed (`\nB\n`), not after it (`B\n`) as the
claim states, so the returned text does not start exactly after the nearest
line feed at or after the truncation offset. -/
theorem downloadHistoryTail_trim_cex :
    downloadHistoryTail historyCexOver = [10, 66, 10] ∧
    claimedHistoryTail historyCexOver = [66, 10] ∧
    downloadHistoryTail historyCexOver ≠ claimedHistoryTail historyCexOver := by
  have h1 : downloadHistoryTail historyCexOver = [10, 66, 10] := by
    unfold downloadHistoryTail
    rw [if_pos historyCexOver_gt, historyCexOver_idx, Option.getD_some, historyCexOver_drop]
    exact drop_replicate_append 10237 65 [10, 66, 10]
  have h2 : claimedHistoryTail historyCexOver = [66, 10] := by
    unfold claimedHistoryTail
    rw [if_pos historyCexOver_gt, historyCexOver_idx, Option.map_some', Option.getD_some,
      historyCexOver_drop]
    exact drop_succ_replicate_append 10237 65 10 [66, 10]
  refine ⟨h1, h2, ?_⟩
  rw [h1, h2]
  decide

/-- Witness for the amended C2 theorem: instantiates all three branches
(exactly `historySize` bytes; over the bound with no line feed; over the
bound with a first line feed at suffix index 10237) on concrete files. -/
theorem downloadHistoryTail_boundary_witness :
    downloadHistoryTail historyCexExact = historyCexExact ∧
    downloadHistoryTail historyCexNoLF = List.replicate 10240 65 ∧
    downloadHistoryTail historyCexOver =
      (historyCexOver.drop (historyCexOver.length - historySize)).drop 10237 ∧
    (historyCexOver.drop (historyCexOver.length - historySize))[0]? ≠ some 10 := by
  have hexact : historyCexExact.length = historySize := by
    rw [historyCexExact, List.length_replicate]
    decide
  have hlen2 : historyCexNoLF.length = 10241 := by
    rw [historyCexNoLF, List.length_replicate]
  have hgt2 : historyCexNoLF.length > historySize := by
    rw [hlen2]; decide
  have hd2 : historyCexNoLF.drop (historyCexNoLF.length - historySize) =
      List.replicate 10240 65 := by
    have hsub : historyCexNoLF.length - historySize = 1 := by rw [hlen2]; decide
    rw [hsub, historyCexNoLF, List.drop_replicate]
  have hnone2 : indexByte (historyCexNoLF.drop (historyCexNoLF.length - historySize)) 10 =
      none := by
    rw [hd2]
    exact indexByte_replicate_ne 10240 65 10 (by decide)
  refine ⟨(downloadHistoryTail_boundary historyCexExact).1 hexact,
    (((downloadHistoryTail_boundary historyCexNoLF).2 hgt2).1 hnone2).trans hd2,
    (((downloadHistoryTail_boundary historyCexOver).2 historyCexOver_gt).2 10237
      historyCexOver_idx).1,
    (((downloadHistoryTail_boundary historyCexOver).2 historyCexOver_gt).2 10237
      historyCexOver_idx).2.2 0 (by decide)⟩

/-! ### Contact-parsing lemmas -/

theorem stripPre_append (a b : Str) : stripPre a (a ++ b) = some b := by
  induction a with
  | nil => rfl
  | cons c cs ih => simp [stripPre, ih]

theorem stripSuf_append (s m : Str) : stripSuf s (m ++ s) = some m := by
  unfold stripSuf
  rw [List.reverse_append, stripPre_append]
  simp

theorem splitSlash_ne_nil (l : Str) : splitSlash l ≠ [] := by
  cases l with
  | nil => simp [splitSlash]
  | cons c rest =>
    simp only [splitSlash]
    cases h : splitSlash rest with
    | nil => simp
    | cons s ss =>
      by_cases hc : c = '/' <;> simp [hc]

theorem splitSlash_no_slash (l : Str) (h : ∀ c ∈ l, c ≠ '/') : splitSlash l = [l] := by
  induction l with
  | nil => rfl
  | cons c rest ih =>
    have hrest : splitSlash rest = [rest] :=
      ih fun d hd => h d (List.mem_cons_of_mem c hd)
    simp only [splitSlash, hrest]
    rw [if_neg (h c (List.mem_cons_self c rest))]

theorem splitSlash_append (a b : Str) :
    splitSlash (a ++ '/' :: b) = splitSlash a ++ splitSlash b := by
  induction a with
  | nil =>
    simp only [List.nil_append, splitSlash]
    cases h : splitSlash b with
    | nil => exact absurd h (splitSlash_ne_nil b)
    | cons s ss => simp
  | cons c a' ih =>
    simp only [List.cons_append, splitSlash, List.append_eq, ih]
    cases h : splitSlash a' with
    | nil => exact absurd h (splitSlash_ne_nil a')
    | cons s ss =>
      by_cases hc : c = '/' <;> simp [hc]

theorem isDigitCh_ne_slash (c : Char) (h : isDigitCh c = true) : c ≠ '/' := by
  intro hc
  subst hc
  exact absurd h (by decide)

theorem numberMatches_no_slash (num : Str) (h : numberMatches num = true) :
    ∀ c ∈ num, c ≠ '/' := by
  intro c hc
  rw [numberMatches, Bool.or_eq_true] at h
  rcases h with h | h
  · simp only [Bool.and_eq_true, decide_eq_true_eq, List.all_eq_true] at h
    obtain ⟨⟨htake, _⟩, hall⟩ := h
    rw [← List.take_append_drop 1 num, List.mem_append, htake] at hc
    rcases hc with hc | hc
    · simp at hc
      subst hc
      decide
    · exact isDigitCh_ne_slash c (hall c hc)
  · simp only [Bool.and_eq_true, decide_eq_true_eq, List.all_eq_true] at h
    obtain ⟨⟨htake, _⟩, hall⟩ := h
    rw [← List.take_append_drop 2 num, List.mem_append, htake] at hc
    rcases hc with hc | hc
    · simp at hc
      subst hc
      decide
    · exact isDigitCh_ne_slash c (hall c hc)

theorem validSplitAt_iff (mid : Str) (i : Nat) :
    validSplitAt mid i = true ↔
      mid.drop i = ' ' :: mid.drop (i + 1) ∧ numberMatches (mid.drop (i + 1)) = true := by
  simp [validSplitAt]

theorem lastValidSplit_isValid (mid : Str) (j : Nat)
    (h : lastValidSplit mid = some j) : validSplitAt mid j = true := by
  unfold lastValidSplit at h
  obtain ⟨hne, heq⟩ := List.mem_getLast?_eq_getLast h
  have hmem : j ∈ (List.range mid.length).filter (fun i => validSplitAt mid i) := by
    rw [heq]
    exact List.getLast_mem hne
  exact (List.mem_filter.mp hmem).2

theorem lastValidSplit_exists (mid : Str) (i : Nat) (h : validSplitAt mid i = true) :
    ∃ j, lastValidSplit mid = some j := by
  have hdrop := ((validSplitAt_iff mid i).mp h).1
  have hi : i < mid.length := by
    by_contra hcon
    rw [not_lt] at hcon
    rw [List.drop_eq_nil_iff.mpr hcon] at hdrop
    exact List.noConfusion hdrop
  have hmem : i ∈ (List.range mid.length).filter (fun k => validSplitAt mid k) :=
    List.mem_filter.mpr ⟨List.mem_range.mpr hi, h⟩
  have hne := List.ne_nil_of_mem hmem
  cases hlast : ((List.range mid.length).filter (fun k => validSplitAt mid k)).getLast? with
  | none =>
    have := List.getLast?_isSome.mpr hne
    rw [hlast] at this
    simp at this
  | some j => exact ⟨j, by unfold lastValidSplit; exact hlast⟩


theorem contactExt_no_slash : ∀ c ∈ contactExt, c ≠ '/' := by decide

/-- C4: a path built from the naming convention
`<contactsRoot>/<displayName> <number>.<ext>` (display name without `/`,
number matching the canonical pattern, contacts root without `..`
components) parses successfully, the parsed record reproduces the filename
`<displayName> <number>.<ext>` exactly, and its `HistoryPath` is the path
itself. -/
theorem parseContact_roundtrip (conf : Config) (name num : Str)
    (hname : ∀ c ∈ name, c ≠ '/')
    (hnum : numberMatches num = true)
    (hroot : "..".toList ∉ splitSlash (contactsPath conf)) :
    ∃ c : ContactInfo,
      parseContact conf
        (contactsPath conf ++ '/' :: (name ++ ' ' :: num ++ '.' :: contactExt)) = .ok c ∧
      c.Name ++ ' ' :: c.Number ++ '.' :: contactExt =
        name ++ ' ' :: num ++ '.' :: contactExt ∧
      c.HistoryPath =
        contactsPath conf ++ '/' :: (name ++ ' ' :: num ++ '.' :: contactExt) := by
  have hmid : ∀ c ∈ name ++ ' ' :: num, c ≠ '/' := by
    intro c hc
    rcases List.mem_append.mp hc with hc | hc
    · exact hname c hc
    · rcases List.mem_cons.mp hc with hc | hc
      · subst hc; decide
      · exact numberMatches_no_slash num hnum c hc
  have hfile : ∀ c ∈ name ++ ' ' :: num ++ '.' :: contactExt, c ≠ '/' := by
    intro c hc
    rcases List.mem_append.mp hc with hc | hc
    · exact hmid c hc
    · rcases List.mem_cons.mp hc with hc | hc
      · subst hc; decide
      · exact contactExt_no_slash c hc
  have hvalid : validSplitAt (name ++ ' ' :: num) name.length = true := by
    rw [validSplitAt_iff]
    have h1 : (name ++ ' ' :: num).drop name.length = ' ' :: num := List.drop_left name _
    have h2 : (name ++ ' ' :: num).drop (name.length + 1) = num := by
      rw [List.append_cons name ' ' num]
      have hl : (name ++ [' ']).length = name.length + 1 := by simp
      rw [← hl]
      exact List.drop_left _ _
    rw [h1, h2]
    exact ⟨rfl, hnum⟩
  obtain ⟨j, hj⟩ := lastValidSplit_exists _ _ hvalid
  have hjv := lastValidSplit_isValid _ _ hj
  have hjdrop := ((validSplitAt_iff _ _).mp hjv).1
  have hsplitp : splitSlash
      (contactsPath conf ++ '/' :: (name ++ ' ' :: num ++ '.' :: contactExt)) =
      splitSlash (contactsPath conf) ++ [name ++ ' ' :: num ++ '.' :: contactExt] := by
    rw [splitSlash_append, splitSlash_no_slash _ hfile]
  have habs : absolutePathM
      (contactsPath conf ++ '/' :: (name ++ ' ' :: num ++ '.' :: contactExt)) =
      .ok (contactsPath conf ++ '/' :: (name ++ ' ' :: num ++ '.' :: contactExt)) := by
    unfold absolutePathM
    rw [if_neg]
    intro hmem
    rw [hsplitp, List.mem_append] at hmem
    rcases hmem with hmem | hmem
    · exact hroot hmem
    · have heq2 := List.mem_singleton.mp hmem
      have hlen := congrArg List.length heq2
      have hext : contactExt.length = 10 := rfl
      have hdd : ("..".toList).length = 2 := rfl
      rw [hdd] at hlen
      simp only [List.length_append, List.length_cons, hext] at hlen
      omega
  have e1 : stripPre (contactsPath conf ++ ['/'])
      (contactsPath conf ++ '/' :: (name ++ ' ' :: num ++ '.' :: contactExt)) =
      some (name ++ ' ' :: num ++ '.' :: contactExt) := by
    rw [List.append_cons (contactsPath conf) '/'
      (name ++ ' ' :: num ++ '.' :: contactExt)]
    exact stripPre_append _ _
  have e2 : stripSuf ('.' :: contactExt) (name ++ ' ' :: num ++ '.' :: contactExt) =
      some (name ++ ' ' :: num) :=
    stripSuf_append ('.' :: contactExt) (name ++ ' ' :: num)
  refine ⟨⟨(name ++ ' ' :: num).take j, (name ++ ' ' :: num).drop (j + 1),
    contactsPath conf ++ '/' :: (name ++ ' ' :: num ++ '.' :: contactExt),
    attachmentsPath conf ++ '/' :: (name ++ ' ' :: num)⟩, ?_, ?_, rfl⟩
  · unfold parseContact
    simp only [e1, e2]
    rw [if_pos hmid]
    simp only [hj, habs]
  · have hsplit : (name ++ ' ' :: num).take j ++ ' ' :: (name ++ ' ' :: num).drop (j + 1) =
        name ++ ' ' :: num := by
      conv_rhs => rw [← List.take_append_drop j (name ++ ' ' :: num)]
      rw [hjdrop]
    show ((name ++ ' ' :: num).take j) ++ ' ' :: ((name ++ ' ' :: num).drop (j + 1)) ++
        '.' :: contactExt = name ++ ' ' :: num ++ '.' :: contactExt
    rw [hsplit]

/-! ### Outbound send and history append -/

/-- C1: when the resolved attachment path is classified by `detectKeyPath`
as lying inside the private-key storage area (both flags true), `sendMessage`
answers with an error response and its trace contains no file open and no
transport call, regardless of the contact and msg fields. -/
theorem sendMessage_refuses_keypath (env : SendEnv) (req : Req) (a r : Str)
    (hreq : env.reqRes = .ok req) (hatt : req.attachment = some a)
    (habs : absolutePathM a = .ok r) (hkey : env.detectKeyPath r = (true, true)) :
    (sendMessage env).1.isOk = false ∧
    ∀ eff ∈ (sendMessage env).2, eff.isFileOpen = false ∧ eff.isTransportCall = false := by
  unfold sendMessage
  simp only [hreq]
  cases hc : absolutePathM req.contact with
  | error e => simp only [hc]; simp [Resp.isOk]
  | ok contactPath =>
    simp only [hc]
    cases hp : parseContact env.conf contactPath with
    | error e => simp only [hp]; simp [Resp.isOk]
    | ok contact =>
      simp only [hp, hatt, habs, hkey]
      simp [Resp.isOk]

/-- Witness for C1 on a concrete environment. -/
theorem sendMessage_refuses_keypath_witness :
    (sendMessage sendEnvKey).1.isOk = false ∧
    ∀ eff ∈ (sendMessage sendEnvKey).2,
      eff.isFileOpen = false ∧ eff.isTransportCall = false :=
  sendMessage_refuses_keypath sendEnvKey
    ⟨"/m/textsecure/contacts/Alice +15550001.textsecure".toList, "hello".toList,
      some "/m/k/textsecure/private/identity_key".toList⟩
    "/m/k/textsecure/private/identity_key".toList
    "/m/k/textsecure/private/identity_key".toList
    rfl rfl (by decide) rfl

/-- C5: when the transport call that the request needs fails (attachment
send for requests with an attachment, plain send otherwise), `sendMessage`
answers with an error response and its trace contains no history-file
open and no history write. -/
theorem sendMessage_no_history_on_transport_failure (env : SendEnv) (req : Req)
    (eA eM : String) (hreq : env.reqRes = .ok req)
    (hA : req.attachment.isSome = true → env.sendAttachRes = .error eA)
    (hM : req.attachment = none → env.sendRes = .error eM) :
    (sendMessage env).1.isOk = false ∧
    ∀ eff ∈ (sendMessage env).2, eff.isHistoryWrite = false := by
  unfold sendMessage
  simp only [hreq]
  cases hc : absolutePathM req.contact with
  | error e => simp only [hc]; simp [Resp.isOk]
  | ok contactPath =>
    simp only [hc]
    cases hp : parseContact env.conf contactPath with
    | error e => simp only [hp]; simp [Resp.isOk]
    | ok contact =>
      simp only [hp]
      cases hatt : req.attachment with
      | some a =>
        have hA2 : env.sendAttachRes = .error eA := hA (by rw [hatt]; rfl)
        simp only [hatt]
        cases ha : absolutePathM a with
        | error e => simp only [ha]; simp [Resp.isOk]
        | ok attachmentPath =>
          simp only [ha]
          by_cases hkey : (env.detectKeyPath attachmentPath).1 = true ∧
              (env.detectKeyPath attachmentPath).2 = true
          · rw [if_pos hkey]
            simp [Resp.isOk]
          · rw [if_neg hkey]
            cases ho : env.openRes attachmentPath with
            | error e => simp only [ho]; simp [Resp.isOk, Effect.isHistoryWrite]
            | ok _ =>
              simp only [ho, hA2]
              simp [Resp.isOk, Effect.isHistoryWrite]
      | none =>
        have hM2 : env.sendRes = .error eM := hM hatt
        simp only [hatt, hM2]
        simp [Resp.isOk, Effect.isHistoryWrite]

/-- Witness for C5 on a concrete environment. -/
theorem sendMessage_no_history_on_transport_failure_witness :
    (sendMessage sendEnvDown).1.isOk = false ∧
    ∀ eff ∈ (sendMessage sendEnvDown).2, eff.isHistoryWrite = false :=
  sendMessage_no_history_on_transport_failure sendEnvDown
    ⟨"/m/textsecure/contacts/Alice +15550001.textsecure".toList, "hello".toList, none⟩
    "transport down" "transport down" rfl
    (fun h => absurd h (by decide)) (fun _ => rfl)

/-- C6 counterexample: with the append-mode open succeeding and the write of
the formatted line failing (`disk full`), `updateHistory` returns `nil`
rather than the write error -- the I/O error of the write is discarded, not
returned. -/
theorem updateHistory_write_error_cex :
    histEnvWriteFail.writeRes = .error "disk full" ∧
    (updateHistory histEnvWriteFail contact₀ "hi".toList outMarker ts₀).1 = .ok () :=
  ⟨rfl, rfl⟩

/-- C6 (amended): an error from opening the history file is surfaced to the
caller, but the write result is discarded: whenever the open succeeds the
call returns `nil` and performs the open and the write of the formatted
line, whatever the write oracle says. -/
theorem updateHistory_errors (env : HistEnv) (contact : ContactInfo)
    (msg marker ts : Str) :
    (∀ e, env.openRes = .error e →
      updateHistory env contact msg marker ts =
        (.error e, [.openHistory contact.HistoryPath, .statusError])) ∧
    (env.openRes = .ok () →
      updateHistory env contact msg marker ts =
        (.ok (), [.openHistory contact.HistoryPath,
          .writeHistory contact.HistoryPath (historyLine ts marker msg)])) := by
  constructor
  · intro e he
    simp [updateHistory, he]
  · intro h
    simp [updateHistory, h]

/-- Witness for the amended C6 theorem: both outcomes on concrete oracles
(the success case uses the failing-write oracle, showing the write result is
ignored). -/
theorem updateHistory_errors_witness :
    updateHistory histEnvOpenFail contact₀ "hi".toList outMarker ts₀ =
      (.error "no such file", [.openHistory contact₀.HistoryPath, .statusError]) ∧
    updateHistory histEnvWriteFail contact₀ "hi".toList outMarker ts₀ =
      (.ok (), [.openHistory contact₀.HistoryPath,
        .writeHistory contact₀.HistoryPath (historyLine ts₀ outMarker "hi".toList)]) :=
  ⟨(updateHistory_errors histEnvOpenFail contact₀ "hi".toList outMarker ts₀).1
      "no such file" rfl,
    (updateHistory_errors histEnvWriteFail contact₀ "hi".toList outMarker ts₀).2 rfl⟩


/-! ### Contact directory and attachment store -/

/-- Witness for C4 on a concrete contact path. -/
theorem parseContact_roundtrip_witness :
    ∃ c : ContactInfo,
      parseContact conf₀
        (contactsPath conf₀ ++ '/' :: ("Alice".toList ++ ' ' :: "+15550001".toList ++
          '.' :: contactExt)) = .ok c ∧
      c.Name ++ ' ' :: c.Number ++ '.' :: contactExt =
        "Alice".toList ++ ' ' :: "+15550001".toList ++ '.' :: contactExt ∧
      c.HistoryPath = contactsPath conf₀ ++ '/' :: ("Alice".toList ++
        ' ' :: "+15550001".toList ++ '.' :: contactExt) :=
  parseContact_roundtrip conf₀ "Alice".toList "+15550001".toList
    (by decide) (by decide) (by decide)

/-- C7: for a canonical number with an empty glob result, `getContact`
returns the synthesized `Unknown <number>` record (history path
`<contactsRoot>/Unknown <number>.textsecure`, attachment dir
`<attachmentsRoot>/Unknown <number>`) and its only side effect is the
`MkdirAll` of the contacts root -- no file is created. -/
theorem getContact_unknown (env : GetContactEnv) (number : Str)
    (hnum : numberMatches number = true) (hmk : env.mkdirRes = .ok ())
    (hglob : env.globRes = .ok []) :
    getContact env number =
      (.ok ⟨"Unknown".toList, number,
        contactsPath env.conf ++ '/' :: ("Unknown ".toList ++ number ++ '.' :: contactExt),
        attachmentsPath env.conf ++ '/' :: ("Unknown ".toList ++ number)⟩,
        [.mkdirAll (contactsPath env.conf)]) := by
  unfold getContact
  rw [if_pos hnum]
  simp only [hmk, hglob]

/-- Witness for C7 on a concrete environment. -/
theorem getContact_unknown_witness :
    getContact gcEnvNone "+15559999".toList =
      (.ok ⟨"Unknown".toList, "+15559999".toList,
        contactsPath conf₀ ++ '/' :: ("Unknown ".toList ++ "+15559999".toList ++
          '.' :: contactExt),
        attachmentsPath conf₀ ++ '/' :: ("Unknown ".toList ++ "+15559999".toList)⟩,
        [.mkdirAll (contactsPath conf₀)]) :=
  getContact_unknown gcEnvNone "+15559999".toList (by decide) rfl rfl

theorem strLe_refl (a : Str) : strLe a a = true := by simp [strLe]

/-- C10: with one or more glob matches (given in the glob's sorted order),
`getContact` resolves `contacts[0]` -- the lexically smallest match -- via
`parseContact`, and the result does not depend on the further matches. -/
theorem getContact_first_match (env : GetContactEnv) (number c0 : Str) (rest : List Str)
    (hnum : numberMatches number = true) (hmk : env.mkdirRes = .ok ())
    (hglob : env.globRes = .ok (c0 :: rest))
    (hsorted : (c0 :: rest).Pairwise (fun x y => strLe x y = true)) :
    (getContact env number).1 = parseContact env.conf c0 ∧
    (∀ x ∈ c0 :: rest, strLe c0 x = true) ∧
    (∀ (env2 : GetContactEnv) (rest2 : List Str), env2.conf = env.conf →
      env2.mkdirRes = .ok () → env2.globRes = .ok (c0 :: rest2) →
      (getContact env2 number).1 = (getContact env number).1) := by
  have hmain : ∀ (e : GetContactEnv) (r : List Str), e.mkdirRes = .ok () →
      e.globRes = .ok (c0 :: r) → (getContact e number).1 = parseContact e.conf c0 := by
    intro e r hm hg
    unfold getContact
    rw [if_pos hnum]
    simp only [hm, hg]
  refine ⟨hmain env rest hmk hglob, ?_, ?_⟩
  · intro x hx
    rcases List.mem_cons.mp hx with hx | hx
    · rw [hx]
      exact strLe_refl c0
    · exact (List.pairwise_cons.mp hsorted).1 x hx
  · intro env2 rest2 hconf hm2 hg2
    rw [hmain env2 rest2 hm2 hg2, hmain env rest hmk hglob, hconf]

/-- Witness for C10 on two contact files sharing a number. -/
theorem getContact_first_match_witness :
    (getContact gcEnvTwo "+15550001".toList).1 = parseContact conf₀ contactFileA ∧
    (∀ x ∈ [contactFileA, contactFileB], strLe contactFileA x = true) ∧
    (∀ (env2 : GetContactEnv) (rest2 : List Str), env2.conf = conf₀ →
      env2.mkdirRes = .ok () → env2.globRes = .ok (contactFileA :: rest2) →
      (getContact env2 "+15550001".toList).1 =
        (getContact gcEnvTwo "+15550001".toList).1) :=
  getContact_first_match gcEnvTwo "+15550001".toList contactFileA [contactFileB]
    (by decide) rfl rfl (by decide)

/-- C8 counterexample: when `io.Copy` fails (`unexpected EOF`) after the
directory and temp file were created, `saveAttachment` still returns the
generated name together with a `nil` error -- the copy failure is not
returned to the caller. -/
theorem saveAttachment_copy_error_cex :
    saveEnvCopyFail.copyRes = .error "unexpected EOF" ∧
    saveAttachment saveEnvCopyFail contact₀ =
      (("textsecure/attachments/Alice +15550001/attachment_1".toList, .ok ()),
        [.mkdirAll contact₀.AttachmentDir, .createTemp contact₀.AttachmentDir,
          .copyStream contact₀.AttachmentDir]) :=
  ⟨rfl, rfl⟩

/-- C8 (amended): `saveAttachment` creates the attachment directory, creates
a fresh uniquely named file there, copies the stream and returns the
storage-relative name; failures creating the directory or the temp file are
returned, but a copy failure is discarded -- whenever directory and temp
file creation succeed the call returns the name with a `nil` error, whatever
the copy oracle says. -/
theorem saveAttachment_spec (env : SaveEnv) (contact : ContactInfo) :
    (∀ e, env.mkdirRes = .error e →
      saveAttachment env contact = (([], .error e), [.mkdirAll contact.AttachmentDir])) ∧
    (∀ e, env.mkdirRes = .ok () → env.tempRes = .error e →
      saveAttachment env contact = (([], .error e),
        [.mkdirAll contact.AttachmentDir, .createTemp contact.AttachmentDir])) ∧
    (∀ t, env.mkdirRes = .ok () → env.tempRes = .ok t →
      saveAttachment env contact = ((env.relName, .ok ()),
        [.mkdirAll contact.AttachmentDir, .createTemp contact.AttachmentDir,
          .copyStream contact.AttachmentDir])) := by
  refine ⟨?_, ?_, ?_⟩
  · intro e he
    simp [saveAttachment, he]
  · intro e hm ht
    simp [saveAttachment, hm, ht]
  · intro t hm ht
    simp [saveAttachment, hm, ht]

/-- Witness for the amended C8 theorem: all three branches on concrete
oracles (the success branch uses the failing-copy oracle, showing the copy
result is ignored). -/
theorem saveAttachment_spec_witness :
    saveAttachment saveEnvMkdirFail contact₀ =
      (([], .error "permission denied"), [.mkdirAll contact₀.AttachmentDir]) ∧
    saveAttachment saveEnvTempFail contact₀ =
      (([], .error "no space"),
        [.mkdirAll contact₀.AttachmentDir, .createTemp contact₀.AttachmentDir]) ∧
    saveAttachment saveEnvCopyFail contact₀ =
      (("textsecure/attachments/Alice +15550001/attachment_1".toList, .ok ()),
        [.mkdirAll contact₀.AttachmentDir, .createTemp contact₀.AttachmentDir,
          .copyStream contact₀.AttachmentDir]) :=
  ⟨(saveAttachment_spec saveEnvMkdirFail contact₀).1 "permission denied" rfl,
    (saveAttachment_spec saveEnvTempFail contact₀).2.1 "no space" rfl rfl,
    (saveAttachment_spec saveEnvCopyFail contact₀).2.2
      "/m/textsecure/attachments/Alice +15550001/attachment_1".toList rfl rfl⟩

/-! ### Registration -/

/-- C3: in a registration-mode run where the sentinel last-resort-key marker
exists (`os.Stat` succeeds) and authentication is passed (or skipped in test
mode), `Activate` ends in `log.Fatalf` naming the registered number read
from the number file, and no effect in its trace opens or writes the
persisted number file. -/
theorem activate_already_registered (env : ActivateEnv)
    (hstat : env.statRes = .ok ())
    (hauth : env.testMode = true ∨ env.authRes = .ok ()) :
    (activateRegistration env).1 =
      .fatal ("TextSecure registration already present for number ".toList ++
        (match env.regNumber with | .ok n => n | .error _ => []) ++
        ", delete ".toList ++ storagePath env.conf ++ " contents to reset.".toList) ∧
    ∀ eff ∈ (activateRegistration env).2, eff.touchesNumberFile = false := by
  have hck : activateRegistration env = activateRegistrationChecked env := by
    unfold activateRegistration
    rcases hauth with htm | hok
    · rw [if_neg (by simp [htm])]
    · by_cases htm : env.testMode = false
      · rw [if_pos htm, hok]
      · rw [if_neg htm]
  rw [hck]
  unfold activateRegistrationChecked
  rw [hstat]
  refine ⟨rfl, ?_⟩
  intro eff heff
  simp only [needsRegistration] at heff
  rw [if_neg (by decide)] at heff
  rcases List.mem_cons.mp heff with heff | heff
  · rw [heff]
    rfl
  · cases htm : env.testMode with
    | false =>
      rw [htm] at heff
      simp at heff
      rcases heff with heff | heff <;> rw [heff] <;> rfl
    | true =>
      rw [htm] at heff
      simp at heff

/-- Witness for C3 on a concrete environment. -/
theorem activate_already_registered_witness :
    (activateRegistration activateEnv₀).1 =
      .fatal ("TextSecure registration already present for number ".toList ++
        "+15550001".toList ++ ", delete ".toList ++ storagePath conf₀ ++
        " contents to reset.".toList) ∧
    ∀ eff ∈ (activateRegistration activateEnv₀).2, eff.touchesNumberFile = false :=
  activate_already_registered activateEnv₀ rfl (Or.inl rfl)

/-! ### Inbound listener -/

theorem getContact_ok_effects (env : GetContactEnv) (number : Str) (c : ContactInfo)
    (h : (getContact env number).1 = .ok c) :
    (getContact env number).2 = [.mkdirAll (contactsPath env.conf)] := by
  unfold getContact at h ⊢
  by_cases hnum : numberMatches number = true
  · rw [if_pos hnum] at h ⊢
    cases hm : env.mkdirRes with
    | error e => simp only [hm] at h; simp at h
    | ok u =>
      simp only [hm] at h ⊢
      cases hg : env.globRes with
      | error e => simp only [hg] at h; simp at h
      | ok contacts =>
        simp only [hg] at h ⊢
        cases contacts <;> rfl
  · rw [if_neg hnum] at h
    simp at h

theorem processAttachment_count (contact : ContactInfo) (ts : Str)
    (ah : SaveEnv × HistEnv) :
    (processAttachment contact ts ah).countP
      (Effect.isMkdirOf contact.AttachmentDir) = 1 := by
  unfold processAttachment saveAttachment updateHistory
  cases hm : ah.1.mkdirRes <;> cases ht : ah.1.tempRes <;> cases ho : ah.2.openRes <;>
    simp [hm, ht, ho, Effect.isMkdirOf, List.countP_cons, List.countP_append,
      historyLine]

theorem countP_flatten_attachments (contact : ContactInfo) (ts : Str)
    (l : List (SaveEnv × HistEnv)) :
    ((l.map (processAttachment contact ts)).flatten).countP
      (Effect.isMkdirOf contact.AttachmentDir) = l.length := by
  induction l with
  | nil => rfl
  | cons a t ih =>
    rw [List.map_cons, List.flatten_cons, List.countP_append, ih,
      processAttachment_count]
    simp [Nat.add_comm]

theorem infix_flatten_of_mem {α : Type} {l : List α} {L : List (List α)}
    (h : l ∈ L) : l <:+: L.flatten := by
  induction L with
  | nil => cases h
  | cons a t ih =>
    rw [List.flatten_cons]
    rcases List.mem_cons.mp h with h | h
    · rw [h]
      exact (List.prefix_append a t.flatten).isInfix
    · exact (ih h).trans (List.suffix_append a t.flatten).isInfix

/-- C9: when the sender resolves to a contact, the listener callback
attempts to persist every one of the `n` attachments -- the trace contains
exactly `n` `MkdirAll` effects of the contact's attachment directory, the
first step of each save, whatever the individual save oracles say; for
each attachment whose save and history open succeed, the trace contains the
write of the `[savedName]` history line; and each attachment whose save
fails is reported: the trace contains that save's effects immediately
followed by the `status.Error` report. -/
theorem messageHandler_attachments (env : MsgEnv) (contact : ContactInfo)
    (hc : (getContact env.gc env.source).1 = .ok contact)
    (hne : contact.AttachmentDir ≠ contactsPath env.gc.conf) :
    (messageHandler env).countP (Effect.isMkdirOf contact.AttachmentDir) =
      env.attachments.length ∧
    (∀ ah ∈ env.attachments, ∀ t, ah.1.mkdirRes = .ok () → ah.1.tempRes = .ok t →
      ah.2.openRes = .ok () →
      Effect.writeHistory contact.HistoryPath
        (historyLine env.ts inMarker ('[' :: ah.1.relName ++ [']'])) ∈
          messageHandler env) ∧
    (∀ ah ∈ env.attachments, ∀ e, (saveAttachment ah.1 contact).1.2 = .error e →
      ((saveAttachment ah.1 contact).2 ++ [Effect.statusError]) <:+:
        messageHandler env) := by
  have heff := getContact_ok_effects env.gc env.source contact hc
  have hmh : messageHandler env = .notify env.source ::
      ([.mkdirAll (contactsPath env.gc.conf)] ++
       (if env.text ≠ [] then (updateHistory env.textHist contact env.text inMarker env.ts).2
        else []) ++
       (env.attachments.map (processAttachment contact env.ts)).flatten) := by
    unfold messageHandler
    simp only [hc, heff]
  have hnotmk : Effect.isMkdirOf contact.AttachmentDir
      (.mkdirAll (contactsPath env.gc.conf)) = false := by
    simp only [Effect.isMkdirOf]
    exact decide_eq_false fun hx => hne hx.symm
  refine ⟨?_, ?_, ?_⟩
  · rw [hmh]
    rw [List.countP_cons, List.countP_append, List.countP_append,
      countP_flatten_attachments]
    have h1 : ([Effect.mkdirAll (contactsPath env.gc.conf)]).countP
        (Effect.isMkdirOf contact.AttachmentDir) = 0 := by
      simp [List.countP_cons, hnotmk]
    have h2 : (if env.text ≠ [] then
        (updateHistory env.textHist contact env.text inMarker env.ts).2
        else []).countP (Effect.isMkdirOf contact.AttachmentDir) = 0 := by
      by_cases htext : env.text ≠ []
      · rw [if_pos htext]
        unfold updateHistory
        cases ho : env.textHist.openRes <;>
          simp [ho, Effect.isMkdirOf, List.countP_cons]
      · rw [if_neg htext]
        rfl
    rw [h1, h2]
    simp [Effect.isMkdirOf]
  · intro ah hah t hm ht ho
    rw [hmh]
    apply List.mem_cons_of_mem
    apply List.mem_append_right
    apply List.mem_flatten.mpr
    refine ⟨processAttachment contact env.ts ah, List.mem_map_of_mem _ hah, ?_⟩
    unfold processAttachment saveAttachment updateHistory
    simp only [hm, ht, ho]
    simp
  · intro ah hah e herr
    have h1 : processAttachment contact env.ts ah =
        (saveAttachment ah.1 contact).2 ++ [Effect.statusError] := by
      unfold processAttachment
      rcases hsave : saveAttachment ah.1 contact with ⟨⟨name, res⟩, eff⟩
      rw [hsave] at herr
      simp only at herr
      rw [herr]
    have h2 : processAttachment contact env.ts ah <:+:
        (env.attachments.map (processAttachment contact env.ts)).flatten :=
      infix_flatten_of_mem (List.mem_map_of_mem _ hah)
    rw [hmh, ← h1]
    exact (h2.trans (List.suffix_append _ _).isInfix).trans
      (List.suffix_cons _ _).isInfix

/-- Witness for C9: two attachments, the first failing at directory
creation; both are attempted (count 2), the second's history line is
written, and the first's failure is reported with `status.Error` right
after its failed save. -/
theorem messageHandler_attachments_witness :
    (messageHandler msgEnv₀).countP (Effect.isMkdirOf contact₀.AttachmentDir) = 2 ∧
    Effect.writeHistory contact₀.HistoryPath
      (historyLine ts₀ inMarker ('[' :: saveEnvCopyFail.relName ++ [']'])) ∈
        messageHandler msgEnv₀ ∧
    ((saveAttachment saveEnvMkdirFail contact₀).2 ++ [Effect.statusError]) <:+:
      messageHandler msgEnv₀ :=
  ⟨(messageHandler_attachments msgEnv₀ contact₀ (by decide) (by decide)).1,
    (messageHandler_attachments msgEnv₀ contact₀ (by decide) (by decide)).2.1
      (saveEnvCopyFail, ⟨.ok (), .ok ()⟩)
      (List.mem_cons_of_mem _ (List.mem_cons_self _ _))
      "/m/textsecure/attachments/Alice +15550001/attachment_1".toList rfl rfl rfl,
    (messageHandler_attachments msgEnv₀ contact₀ (by decide) (by decide)).2.2
      (saveEnvMkdirFail, ⟨.ok (), .ok ()⟩) (List.mem_cons_self _ _)
      "permission denied" rfl⟩

end Interlock
